import Mathlib

/-!
Verification development for the SSE connection-registry / broadcast engine
(`EventService` in `src/features/sse/services/event-service.ts`).

The engine state is embedded shallowly: the `Map<string, SSEClient>` becomes an
insertion-ordered association list of client records, `Date.now()` becomes an
explicit `now : Nat` argument, and the per-client
`ReadableStreamDefaultController` becomes a record holding the frames
successfully enqueued so far together with two capability flags:

* `canEnqueue` — whether `controller.enqueue` succeeds (a broken / closed /
  cancelled stream rejects writes by throwing);
* `canClose` — whether `controller.close` succeeds (per the WHATWG Streams
  standard `close()` throws a `TypeError` when the stream is no longer
  readable, e.g. after the transport cancelled it or after a previous close).

The `try`/`catch` blocks of the source become case splits on these flags.
JavaScript truthiness tests on strings and numbers (`if (event.retry)`,
`if (filter.userId && ...)`) are embedded as the exact conditions they compute:
a string is truthy iff nonempty, a number is truthy iff nonzero.
-/

/-- Separator-join of a list of strings, the model of JavaScript
`Array.prototype.join(sep)`. -/
def joinSep (sep : String) : List String → String
  | [] => ""
  | [x] => x
  | x :: y :: t => x ++ sep ++ joinSep sep (y :: t)

/-- Concatenation of a list of strings. -/
def concatAll : List String → String
  | [] => ""
  | x :: t => x ++ concatAll t

/-- Split of a character list at newline characters, the model of JavaScript
`String.prototype.split("\n")` (always returns at least one segment). -/
def splitNl : List Char → List (List Char)
  | [] => [[]]
  | c :: cs =>
    match splitNl cs with
    | [] => [[c]]
    | g :: gs => if c = '\n' then [] :: g :: gs else (c :: g) :: gs

/-- Split of a string at newline characters. -/
def splitLines (s : String) : List String :=
  (splitNl s.data).map List.asString

/-- JSON values, the serializable payloads handled by `JSON.stringify`. -/
inductive Json where
  | null : Json
  | bool (b : Bool) : Json
  | num (n : Int) : Json
  | str (s : String) : Json
  | arr (xs : List Json) : Json
  | obj (kvs : List (String × Json)) : Json
deriving Repr

/-- Hexadecimal digit character for a value below 16. -/
def hexDigit (n : Nat) : Char :=
  if n < 10 then Char.ofNat (48 + n) else Char.ofNat (87 + (n - 10))

/-- Escape of a single character inside a JSON string literal, following
`JSON.stringify`. -/
def jsonEscapeChar (c : Char) : String :=
  if c = '"' then "\\\""
  else if c = '\\' then "\\\\"
  else if c = '\n' then "\\n"
  else if c = '\r' then "\\r"
  else if c = '\t' then "\\t"
  else if c = '\x08' then "\\b"
  else if c = '\x0c' then "\\f"
  else if c.toNat < 32 then
    "\\u00" ++ String.mk [hexDigit (c.toNat / 16), hexDigit (c.toNat % 16)]
  else String.mk [c]

/-- Escape of a string for inclusion in a JSON string literal. -/
def jsonEscape (s : String) : String :=
  concatAll (s.data.map jsonEscapeChar)

mutual

/-- Canonical JSON text of a value, the model of `JSON.stringify`. -/
def Json.stringify : Json → String
  | .null => "null"
  | .bool b => cond b "true" "false"
  | .num n => toString n
  | .str s => "\"" ++ jsonEscape s ++ "\""
  | .arr xs => "[" ++ Json.stringifyArr xs ++ "]"
  | .obj kvs => "\x7b" ++ Json.stringifyObj kvs ++ "\x7d"

/-- Comma-separated serialization of a JSON array body. -/
def Json.stringifyArr : List Json → String
  | [] => ""
  | [x] => Json.stringify x
  | x :: y :: t => Json.stringify x ++ "," ++ Json.stringifyArr (y :: t)

/-- Comma-separated serialization of a JSON object body. -/
def Json.stringifyObj : List (String × Json) → String
  | [] => ""
  | [kv] => "\"" ++ jsonEscape kv.1 ++ "\":" ++ Json.stringify kv.2
  | kv :: kv' :: t =>
    "\"" ++ jsonEscape kv.1 ++ "\":" ++ Json.stringify kv.2 ++ "," ++
      Json.stringifyObj (kv' :: t)

end

/-- Payload of an outbound event: either already text (used verbatim by the
formatter, the `typeof event.data === "string"` branch) or a structured value
serialized with `JSON.stringify`. -/
inductive SSEData where
  | str (s : String) : SSEData
  | json (j : Json) : SSEData
deriving Repr

/-- Outbound event (`SSEEvent<T>` of `types.ts`): required `event` type label,
payload `data`, optional `id` and optional `retry` interval. -/
structure SSEEvent where
  event : String
  data : SSEData
  id : Option String := none
  retry : Option Int := none
deriving Repr

/-- Text of the payload: a string payload verbatim, any other payload its
canonical JSON serialization (`typeof event.data === "string" ? event.data :
JSON.stringify(event.data)`). -/
def payloadText : SSEData → String
  | .str s => s
  | .json j => j.stringify

/-- Wire frame produced for one event (`EventService.formatEvent`):
`id:` line when `event.id` is truthy (present and nonempty), `event:` line when
the type label is truthy (nonempty), `retry:` line when `event.retry` is truthy
(present and nonzero), then one `data:` line per newline-delimited segment of
the payload text, joined with newlines and terminated by a blank line. -/
def formatEvent (e : SSEEvent) : String :=
  (match e.id with
    | some i => if i = "" then "" else "id: " ++ i ++ "\n"
    | none => "") ++
  (if e.event = "" then "" else "event: " ++ e.event ++ "\n") ++
  (match e.retry with
    | some r => if r = 0 then "" else "retry: " ++ toString r ++ "\n"
    | none => "") ++
  joinSep "\n" ((splitLines (payloadText e.data)).map (fun l => "data: " ++ l)) ++
  "\n\n"

/-- Outbound stream controller of one client: the frames successfully enqueued
so far, plus the capability flags described in the module docstring. -/
structure Controller where
  canEnqueue : Bool
  canClose : Bool
  sent : List String
deriving Repr, DecidableEq

/-- One registered client (`SSEClient` of `types.ts`). -/
structure SSEClient where
  id : String
  userId : Option String := none
  sessionId : Option String := none
  controller : Controller
  connectedAt : Nat
  lastPing : Nat
  metadata : Option (List (String × String)) := none
deriving Repr, DecidableEq

/-- Delivery / query filter (`ClientFilter` of `types.ts`). -/
structure ClientFilter where
  userId : Option String := none
  sessionId : Option String := none
  clientIds : Option (List String) := none
  metadata : Option (List (String × String)) := none
deriving Repr, DecidableEq

/-- Construction-time configuration (`SSEConfig`), all fields optional. -/
structure SSEConfig where
  pingInterval : Option Nat := none
  clientTimeout : Option Nat := none
  maxClients : Option Nat := none
  enableLogging : Option Bool := none
deriving Repr, DecidableEq

/-- Resolved configuration (`Required<SSEConfig>` after the constructor applied
the defaults 45000 / 90000 / 1000 / true). -/
structure ResolvedConfig where
  pingInterval : Nat
  clientTimeout : Nat
  maxClients : Nat
  enableLogging : Bool
deriving Repr, DecidableEq

/-- Engine state: the insertion-ordered client table, whether the heartbeat
interval is scheduled, the cumulative delivered-event counter, the timestamp of
the last successful delivery, the resolved configuration, and the counter
feeding the opaque fresh client ids of `generateClientId`. -/
structure EventService where
  clients : List SSEClient
  pingActive : Bool
  totalEventsSent : Nat
  lastEventTime : Option Nat
  config : ResolvedConfig
  nextClientId : Nat
deriving Repr, DecidableEq

/-- Freshly constructed engine (`new EventService(config)`): defaults applied,
empty table, heartbeat loop started. -/
def mkService (cfg : SSEConfig) : EventService :=
  { clients := []
    pingActive := true
    totalEventsSent := 0
    lastEventTime := none
    config :=
      { pingInterval := cfg.pingInterval.getD 45000
        clientTimeout := cfg.clientTimeout.getD 90000
        maxClients := cfg.maxClients.getD 1000
        enableLogging := cfg.enableLogging.getD true }
    nextClientId := 0 }

/-- Lookup of a client by id (`this.clients.get(clientId)`). -/
def getClient (s : EventService) (clientId : String) : Option SSEClient :=
  s.clients.find? (fun c => c.id == clientId)

/-- Removal of a client (`EventService.disconnectClient`): absent id is a
no-op returning false; otherwise the stream is closed and the entry deleted.
When `controller.close()` throws — the stream is no longer closable — the
`catch` returns false before `this.clients.delete` runs, so the entry stays. -/
def disconnectClient (s : EventService) (clientId : String) : EventService × Bool :=
  match getClient s clientId with
  | none => (s, false)
  | some c =>
    if c.controller.canClose then
      ({ s with clients := s.clients.filter (fun c' => !(c'.id == clientId)) }, true)
    else
      (s, false)

/-- Append of one formatted frame to a client's stream
(`client.controller.enqueue(new TextEncoder().encode(message))`). -/
def appendFrame (e : SSEEvent) (c : SSEClient) : SSEClient :=
  { c with controller :=
      { c.controller with sent := c.controller.sent ++ [formatEvent e] } }

/-- Delivery of one event to one client (`EventService.sendToClient`): absent
client returns false; a successful enqueue appends the formatted frame to the
client's stream, increments the delivered-event counter and records the
delivery time; a failed enqueue triggers `disconnectClient` and returns
false. -/
def sendToClient (now : Nat) (s : EventService) (clientId : String)
    (e : SSEEvent) : EventService × Bool :=
  match getClient s clientId with
  | none => (s, false)
  | some c =>
    if c.controller.canEnqueue then
      ({ s with
          clients := s.clients.map (fun c' =>
            if c'.id == clientId then appendFrame e c' else c')
          totalEventsSent := s.totalEventsSent + 1
          lastEventTime := some now }, true)
    else
      ((disconnectClient s clientId).1, false)

/-- Lookup of a key in a client's optional metadata record
(`client.metadata?.[k]`). -/
def metaLookup (m : Option (List (String × String))) (k : String) : Option String :=
  match m with
  | none => none
  | some kvs => (kvs.find? (fun kv => kv.1 == k)).map (fun kv => kv.2)

/-- Filter predicate of `EventService.getClientsByFilter`, with the source's
JavaScript truthiness guards embedded exactly: a `userId` / `sessionId`
constraint is only applied when the filter value is a nonempty string; an
absent `clientIds` array or absent `metadata` object disables that clause. -/
def matchesFilter (f : ClientFilter) (c : SSEClient) : Bool :=
  (match f.clientIds with
    | none => true
    | some ids => ids.contains c.id) &&
  (match f.userId with
    | none => true
    | some u => if u = "" then true else c.userId == some u) &&
  (match f.sessionId with
    | none => true
    | some v => if v = "" then true else c.sessionId == some v) &&
  (match f.metadata with
    | none => true
    | some kvs => kvs.all (fun kv => metaLookup c.metadata kv.1 == some kv.2))

/-- Filtered query (`EventService.getClientsByFilter`), in table order. -/
def getClientsByFilter (s : EventService) (f : ClientFilter) : List SSEClient :=
  s.clients.filter (matchesFilter f)

/-- One step of the multicast reduce: deliver to one matched client,
incrementing the success count when the delivery reports true. -/
def sendStep (now : Nat) (e : SSEEvent) (acc : EventService × Nat)
    (c : SSEClient) : EventService × Nat :=
  let r := sendToClient now acc.1 c.id e
  (r.1, if r.2 then acc.2 + 1 else acc.2)

/-- The multicast reduce over an already-resolved client snapshot. -/
def sendLoop (now : Nat) (e : SSEEvent) (cs : List SSEClient)
    (acc : EventService × Nat) : EventService × Nat :=
  cs.foldl (sendStep now e) acc

/-- Multicast (`EventService.sendToClients`): resolve the filter once, then
deliver to each matched client in order, counting successes. -/
def sendToClients (now : Nat) (s : EventService) (f : ClientFilter)
    (e : SSEEvent) : EventService × Nat :=
  sendLoop now e (getClientsByFilter s f) (s, 0)

/-- Broadcast (`EventService.broadcast`): multicast with the empty filter. -/
def broadcast (now : Nat) (s : EventService) (e : SSEEvent) : EventService × Nat :=
  sendToClients now s {} e

/-- Per-user delivery (`EventService.sendToUser`): multicast with a
userId-only filter. -/
def sendToUser (now : Nat) (s : EventService) (userId : String)
    (e : SSEEvent) : EventService × Nat :=
  sendToClients now s { userId := some userId } e

/-- Opaque fresh client id (`generateClientId`, modelled with the engine's
fresh counter in place of the timestamp-and-random suffix). -/
def genClientId (n : Nat) : String :=
  "rt_" ++ toString n

/-- Insertion into the client table with `Map.set` semantics: an existing key
is overwritten in place, a new key is appended. -/
def mapSet (cs : List SSEClient) (c : SSEClient) : List SSEClient :=
  if cs.any (fun c' => c'.id == c.id) then
    cs.map (fun c' => if c'.id == c.id then c else c')
  else
    cs ++ [c]

/-- Connection options accepted by `createConnection`. -/
structure ConnOptions where
  userId : Option String := none
  sessionId : Option String := none
  metadata : Option (List (String × String)) := none
deriving Repr, DecidableEq

/-- The client record built at registration: fresh id, fresh open stream,
`connectedAt = lastPing = now`, labels copied from the request. -/
def newClient (now : Nat) (s : EventService) (options : ConnOptions) : SSEClient :=
  { id := genClientId s.nextClientId
    userId := options.userId
    sessionId := options.sessionId
    controller := { canEnqueue := true, canClose := true, sent := [] }
    connectedAt := now
    lastPing := now
    metadata := options.metadata }

/-- The synthetic `connected` event sent once at registration, carrying the
client id and connection time. -/
def connectedEvent (now : Nat) (cid : String) : SSEEvent :=
  { event := "connected"
    data := .json (.obj [("clientId", .str cid),
                         ("connectedAt", .num (Int.ofNat now))]) }

/-- Registration (`EventService.createConnection`): at capacity it throws
`"Maximum number of clients reached"` before any stream is created; otherwise
it allocates a fresh id, inserts the client with `connectedAt = lastPing = now`
and a fresh open stream, and immediately attempts to deliver the synthetic
`connected` event (whose failure would not fail registration). -/
def createConnection (now : Nat) (s : EventService) (options : ConnOptions) :
    Except String (EventService × String) :=
  if s.clients.length ≥ s.config.maxClients then
    .error "Maximum number of clients reached"
  else
    let client := newClient now s options
    let s1 := { s with clients := mapSet s.clients client
                       nextClientId := s.nextClientId + 1 }
    .ok ((sendToClient now s1 client.id (connectedEvent now client.id)).1,
         client.id)

/-- Update of one client's `lastPing` field (`client.lastPing = now`). -/
def updateLastPing (s : EventService) (clientId : String) (t : Nat) : EventService :=
  { s with clients := s.clients.map (fun c =>
      if c.id == clientId then { c with lastPing := t } else c) }

/-- Synthetic heartbeat event sent each tick. -/
def heartbeatEvent (now : Nat) : SSEEvent :=
  { event := "ping", data := .json (.obj [("timestamp", .num (Int.ofNat now))]) }

/-- One client's step of the heartbeat loop body: send the ping through the
normal dispatch path and refresh `lastPing` only on success. -/
def pingStep (now : Nat) (acc : EventService) (c : SSEClient) : EventService :=
  let r := sendToClient now acc c.id (heartbeatEvent now)
  if r.2 then updateLastPing r.1 c.id now else r.1

/-- The ping phase's fold over an already-taken client snapshot. -/
def pingLoop (now : Nat) (cs : List SSEClient) (s : EventService) : EventService :=
  cs.foldl (pingStep now) s

/-- Ping phase of one heartbeat tick (`startPingInterval` callback before the
sweep): ping every registered client. -/
def sendPings (now : Nat) (s : EventService) : EventService :=
  pingLoop now s.clients s

/-- One step of the stale sweep: disconnect the client when its `lastPing`
is strictly older than the timeout. -/
def sweepStep (now timeout : Nat) (acc : EventService) (c : SSEClient) :
    EventService :=
  if now - c.lastPing > timeout then (disconnectClient acc c.id).1 else acc

/-- Stale sweep (`EventService.cleanupStaleClients`): disconnect every client
whose `lastPing` is strictly older than `clientTimeout`. -/
def cleanupStaleClients (now : Nat) (s : EventService) : EventService :=
  s.clients.foldl (sweepStep now s.config.clientTimeout) s

/-- One full heartbeat tick: pings, then the stale sweep. -/
def pingTick (now : Nat) (s : EventService) : EventService :=
  cleanupStaleClients now (sendPings now s)

/-- One step of teardown: disconnect one client. -/
def dropStep (acc : EventService) (c : SSEClient) : EventService :=
  (disconnectClient acc c.id).1

/-- Teardown (`EventService.destroy`): stop the heartbeat interval, disconnect
every client, then clear the table. No terminal flag is recorded beyond the
stopped interval. -/
def destroy (s : EventService) : EventService :=
  let s1 := s.clients.foldl dropStep s
  { s1 with clients := [], pingActive := false }

/-- Derived statistics snapshot (`SSEStats`). -/
structure SSEStats where
  totalClients : Nat
  clientsByUser : List (String × Nat)
  averageConnectionDuration : Rat
  totalEventsSent : Nat
  lastEventTime : Option Nat
deriving Repr

/-- Increment of a per-user counter record (`clientsByUser[u] =
(clientsByUser[u] || 0) + 1`), preserving first-insertion key order. -/
def bumpUser (m : List (String × Nat)) (u : String) : List (String × Nat) :=
  if m.any (fun p => p.1 == u) then
    m.map (fun p => if p.1 == u then (p.1, p.2 + 1) else p)
  else
    m ++ [(u, 1)]

/-- Stats query (`EventService.getStats`): pure snapshot of the registry. Only
clients with a truthy (nonempty) `userId` contribute to `clientsByUser`. -/
def getStats (now : Nat) (s : EventService) : SSEStats :=
  let m := s.clients.foldl
    (fun m c =>
      match c.userId with
      | some u => if u = "" then m else bumpUser m u
      | none => m)
    []
  let dur := s.clients.foldl (fun t c => t + (now - c.connectedAt)) 0
  { totalClients := s.clients.length
    clientsByUser := m
    averageConnectionDuration :=
      if s.clients.length > 0 then (dur : Rat) / (s.clients.length : Rat) else 0
    totalEventsSent := s.totalEventsSent
    lastEventTime := s.lastEventTime }

/-! ### Helper observers and spec-side definitions -/

/-- Frames successfully written to a client's stream so far, when the client
is registered. -/
def sentOf (s : EventService) (clientId : String) : Option (List String) :=
  (getClient s clientId).map (fun c => c.controller.sent)

/-- Liveness timestamp of a registered client. -/
def lastPingOf (s : EventService) (clientId : String) : Option Nat :=
  (getClient s clientId).map (fun c => c.lastPing)

/-- Whether every registered client's stream currently accepts writes
(the "no write fails" situation). -/
def allStreamsOk (s : EventService) : Bool :=
  s.clients.all (fun c => c.controller.canEnqueue)

/-- Whether every client of a snapshot is registered in `s` with a stream that
accepts writes. -/
def allSendOk (s : EventService) (cs : List SSEClient) : Bool :=
  cs.all (fun c =>
    match getClient s c.id with
    | some c' => c'.controller.canEnqueue
    | none => false)

/-- Modelled from the spec words of the filter-matching claim: a client
matches iff (allow-list absent OR client id in it) AND (userId absent OR
equal) AND (sessionId absent OR equal) AND (metadata absent OR every given
key present with an equal value). Stated for comparison with the source's
`matchesFilter`. -/
def specMatches (f : ClientFilter) (c : SSEClient) : Bool :=
  (match f.clientIds with
    | none => true
    | some ids => ids.contains c.id) &&
  (match f.userId with
    | none => true
    | some u => c.userId == some u) &&
  (match f.sessionId with
    | none => true
    | some v => c.sessionId == some v) &&
  (match f.metadata with
    | none => true
    | some kvs => kvs.all (fun kv => metaLookup c.metadata kv.1 == some kv.2))

/-- Amended filter predicate: as the claim's formula, except that an empty
`userId` or `sessionId` string in the filter behaves like an absent one. -/
def specMatchesAmended (f : ClientFilter) (c : SSEClient) : Bool :=
  (match f.clientIds with
    | none => true
    | some ids => ids.contains c.id) &&
  (match f.userId with
    | none => true
    | some u => decide (u = "") || c.userId == some u) &&
  (match f.sessionId with
    | none => true
    | some v => decide (v = "") || c.sessionId == some v) &&
  (match f.metadata with
    | none => true
    | some kvs => kvs.all (fun kv => metaLookup c.metadata kv.1 == some kv.2))

/-- Modelled from the spec words of the frame-format claim: the frame's lines
in order — an `id:` line if the event has an id, an `event:` line for the
(required) type label, a `retry:` line if it has a retry interval, then one
`data:` line per newline-delimited segment of the payload. -/
def claimFrameLines (e : SSEEvent) : List String :=
  (match e.id with
    | some i => ["id: " ++ i]
    | none => []) ++
  ["event: " ++ e.event] ++
  (match e.retry with
    | some r => ["retry: " ++ toString r]
    | none => []) ++
  (splitLines (payloadText e.data)).map (fun l => "data: " ++ l)

/-- Frame as the claim describes it: each line newline-terminated, followed by
the blank-line terminator. -/
def specFormatEvent (e : SSEEvent) : String :=
  concatAll ((claimFrameLines e).map (fun l => l ++ "\n")) ++ "\n"

/-- Amended frame lines: a header line is emitted only when its value is
truthy — nonempty `id`, nonempty type label, nonzero `retry`. -/
def amendedFrameLines (e : SSEEvent) : List String :=
  (match e.id with
    | some i => if i = "" then [] else ["id: " ++ i]
    | none => []) ++
  (if e.event = "" then [] else ["event: " ++ e.event]) ++
  (match e.retry with
    | some r => if r = 0 then [] else ["retry: " ++ toString r]
    | none => []) ++
  (splitLines (payloadText e.data)).map (fun l => "data: " ++ l)

/-- Amended frame: each amended line newline-terminated, followed by the
blank-line terminator. -/
def specFormatAmended (e : SSEEvent) : String :=
  concatAll ((amendedFrameLines e).map (fun l => l ++ "\n")) ++ "\n"

/-- One registration attempt of a request sequence: a thrown capacity error
leaves the engine untouched in the caller. -/
def regStep (s : EventService) (req : Nat × ConnOptions) : EventService :=
  match createConnection req.1 s req.2 with
  | .ok p => p.1
  | .error _ => s

/-- A sequence of registration attempts with no intervening removals. -/
def regFold (reqs : List (Nat × ConnOptions)) (s : EventService) : EventService :=
  reqs.foldl regStep s

/-! ### Concrete states for counterexamples and witnesses -/

/-- A healthy open controller with no frames written yet. -/
def freshController : Controller :=
  { canEnqueue := true, canClose := true, sent := [] }

/-- A broken controller: the transport is gone, so both `enqueue` and `close`
throw (per the Streams standard, `close()` on a non-readable stream throws). -/
def brokenController : Controller :=
  { canEnqueue := false, canClose := false, sent := [] }

/-- A healthy registered client. -/
def clientU : SSEClient :=
  { id := "rt_0", userId := some "u", controller := freshController,
    connectedAt := 0, lastPing := 0 }

/-- A healthy registered client with userId `x`. -/
def clientX : SSEClient :=
  { id := "rt_1", userId := some "x", controller := freshController,
    connectedAt := 0, lastPing := 0 }

/-- A registered client whose stream is broken and stale
(`lastPing = 0`). -/
def clientGhost : SSEClient :=
  { id := "rt_9", userId := some "g", controller := brokenController,
    connectedAt := 0, lastPing := 0 }

/-- Default resolved configuration. -/
def defaultConfig : ResolvedConfig :=
  { pingInterval := 45000, clientTimeout := 90000, maxClients := 1000,
    enableLogging := true }

/-- Engine with the single healthy client `clientU`. -/
def svcU : EventService :=
  { clients := [clientU], pingActive := true, totalEventsSent := 0,
    lastEventTime := none, config := defaultConfig, nextClientId := 2 }

/-- Engine with the single healthy client `clientX`. -/
def svcX : EventService :=
  { clients := [clientX], pingActive := true, totalEventsSent := 0,
    lastEventTime := none, config := defaultConfig, nextClientId := 2 }

/-- Engine with the single broken, stale client `clientGhost`. -/
def svcGhost : EventService :=
  { clients := [clientGhost], pingActive := true, totalEventsSent := 0,
    lastEventTime := none, config := defaultConfig, nextClientId := 10 }

/-- A sample application event. -/
def evN : SSEEvent :=
  { event := "notification", data := .str "m" }

/-- Engine obtained by one registration on a fresh engine. -/
def svcReg : EventService :=
  match createConnection 1 (mkService {}) { userId := some "u" } with
  | .ok p => p.1
  | .error _ => mkService {}

/-- The client registered in `svcReg`. -/
def clientReg : SSEClient :=
  match getClient svcReg "rt_0" with
  | some c => c
  | none => clientU

/-! ### Basic lookup lemmas -/

/-- A found client has the looked-up id. -/
lemma getClient_id {s : EventService} {cid : String} {c : SSEClient}
    (h : getClient s cid = some c) : c.id = cid := by
  have := List.find?_some h
  simpa using this

/-- A found client is a member of the table. -/
lemma getClient_mem {s : EventService} {cid : String} {c : SSEClient}
    (h : getClient s cid = some c) : c ∈ s.clients :=
  List.mem_of_find?_eq_some h

/-- Lookup commutes with an id-preserving map over the table. -/
lemma find_map_id_preserving (g : SSEClient → SSEClient)
    (hg : ∀ c, (g c).id = c.id) (l : List SSEClient) (cid : String) :
    (l.map g).find? (fun c => c.id == cid) =
      (l.find? (fun c => c.id == cid)).map g := by
  induction l with
  | nil => rfl
  | cons a t ih =>
    simp only [List.map_cons, List.find?_cons, hg]
    cases h : (a.id == cid) with
    | true => simp
    | false => simpa using ih

/-- Lookup of one id is unaffected by filtering another id out. -/
lemma find_filter_ne (l : List SSEClient) {cid cid' : String} (h : cid ≠ cid') :
    (l.filter (fun c => !(c.id == cid'))).find? (fun c => c.id == cid) =
      l.find? (fun c => c.id == cid) := by
  induction l with
  | nil => rfl
  | cons a t ih =>
    by_cases ha : a.id = cid'
    · have hac : ¬ (a.id = cid) := fun hEq => h (by rw [← hEq, ha])
      have hcc : (cid' == cid) = false := by
        simp [Ne.symm h]
      simp [List.filter_cons, ha, List.find?_cons, hac, ih, hcc]
    · by_cases hc : a.id = cid
      · simp [List.filter_cons, ha, hc, List.find?_cons, h]
      · simp [List.filter_cons, ha, hc, List.find?_cons, ih]

/-- Lookup of an id after filtering that id out finds nothing. -/
lemma find_filter_self (l : List SSEClient) (cid : String) :
    (l.filter (fun c => !(c.id == cid))).find? (fun c => c.id == cid) = none := by
  induction l with
  | nil => rfl
  | cons a t ih =>
    by_cases ha : a.id = cid
    · simp [List.filter_cons, ha, ih]
    · simp [List.filter_cons, ha, List.find?_cons, ih]

/-- With pairwise-distinct ids, looking up a member's id finds that member. -/
lemma find_mem_nodup {c : SSEClient} (l : List SSEClient)
    (hn : (l.map (fun x => x.id)).Nodup) (hm : c ∈ l) :
    l.find? (fun x => x.id == c.id) = some c := by
  induction l with
  | nil => cases hm
  | cons a t ih =>
    rcases List.mem_cons.mp hm with rfl | hm'
    · simp [List.find?_cons]
    · have ha : a.id ≠ c.id := by
        intro hEq
        have hc : c.id ∈ t.map (fun x => x.id) := List.mem_map_of_mem _ hm'
        simp only [List.map_cons, List.nodup_cons] at hn
        exact hn.1 (hEq ▸ hc)
      have hn' : (t.map (fun x => x.id)).Nodup := by
        simp only [List.map_cons, List.nodup_cons] at hn
        exact hn.2
      simp [List.find?_cons, ha, ih hn' hm']

/-- With pairwise-distinct ids, looking up a member's id finds that member. -/
lemma getClient_of_mem_nodup {s : EventService} {c : SSEClient}
    (hn : (s.clients.map (fun x => x.id)).Nodup) (hm : c ∈ s.clients) :
    getClient s c.id = some c :=
  find_mem_nodup s.clients hn hm

/-! ### Shape lemmas for the single-client operations -/

/-- Disconnect of an absent id is a no-op returning false. -/
lemma disconnectClient_absent {s : EventService} {cid : String}
    (h : getClient s cid = none) : disconnectClient s cid = (s, false) := by
  simp [disconnectClient, h]

/-- Disconnect of a present client whose stream close succeeds removes the
entry and returns true. -/
lemma disconnectClient_close {s : EventService} {cid : String} {c : SSEClient}
    (h : getClient s cid = some c) (hc : c.controller.canClose = true) :
    disconnectClient s cid =
      ({ s with clients := s.clients.filter (fun c' => !(c'.id == cid)) }, true) := by
  simp [disconnectClient, h, hc]

/-- Disconnect of a present client whose stream close throws is caught and
returns false with the entry still in place. -/
lemma disconnectClient_stuck {s : EventService} {cid : String} {c : SSEClient}
    (h : getClient s cid = some c) (hc : c.controller.canClose = false) :
    disconnectClient s cid = (s, false) := by
  simp [disconnectClient, h, hc]

/-- Successful delivery: the frame is appended to the target client, the
counter increments, the delivery time is recorded, and true is returned. -/
lemma sendToClient_success {now : Nat} {s : EventService} {cid : String}
    {e : SSEEvent} {c : SSEClient}
    (h : getClient s cid = some c) (he : c.controller.canEnqueue = true) :
    sendToClient now s cid e =
      ({ s with
          clients := s.clients.map (fun c' =>
            if c'.id == cid then appendFrame e c' else c')
          totalEventsSent := s.totalEventsSent + 1
          lastEventTime := some now }, true) := by
  simp [sendToClient, h, he]

/-- Failed delivery: the engine disconnects the client and returns false. -/
lemma sendToClient_fail {now : Nat} {s : EventService} {cid : String}
    {e : SSEEvent} {c : SSEClient}
    (h : getClient s cid = some c) (he : c.controller.canEnqueue = false) :
    sendToClient now s cid e = ((disconnectClient s cid).1, false) := by
  simp [sendToClient, h, he]

/-- Delivery to an absent id is a no-op returning false. -/
lemma sendToClient_absent {now : Nat} {s : EventService} {cid : String}
    {e : SSEEvent} (h : getClient s cid = none) :
    sendToClient now s cid e = (s, false) := by
  simp [sendToClient, h]

/-! ### Preservation lemmas -/

/-- Disconnect never changes the counter, delivery time, configuration,
heartbeat flag or id counter. -/
lemma disconnect_fields (s : EventService) (cid : String) :
    (disconnectClient s cid).1.totalEventsSent = s.totalEventsSent ∧
    (disconnectClient s cid).1.lastEventTime = s.lastEventTime ∧
    (disconnectClient s cid).1.config = s.config ∧
    (disconnectClient s cid).1.pingActive = s.pingActive ∧
    (disconnectClient s cid).1.nextClientId = s.nextClientId := by
  unfold disconnectClient
  cases h : getClient s cid with
  | none => exact ⟨rfl, rfl, rfl, rfl, rfl⟩
  | some c =>
    by_cases hc : c.controller.canClose <;> simp [hc]

/-- Delivery never changes the configuration, heartbeat flag or id counter. -/
lemma send_fields (now : Nat) (s : EventService) (cid : String) (e : SSEEvent) :
    (sendToClient now s cid e).1.config = s.config ∧
    (sendToClient now s cid e).1.pingActive = s.pingActive ∧
    (sendToClient now s cid e).1.nextClientId = s.nextClientId := by
  unfold sendToClient
  cases h : getClient s cid with
  | none => exact ⟨rfl, rfl, rfl⟩
  | some c =>
    by_cases he : c.controller.canEnqueue
    · simp [he]
    · simpa [he] using
        ⟨(disconnect_fields s cid).2.2.1, (disconnect_fields s cid).2.2.2.1,
          (disconnect_fields s cid).2.2.2.2⟩

/-- The delivered-event counter never decreases across one delivery. -/
lemma send_counter_ge (now : Nat) (s : EventService) (cid : String) (e : SSEEvent) :
    s.totalEventsSent ≤ (sendToClient now s cid e).1.totalEventsSent := by
  unfold sendToClient
  cases h : getClient s cid with
  | none => exact Nat.le_refl _
  | some c =>
    by_cases he : c.controller.canEnqueue
    · simp [he]
    · simp [he, (disconnect_fields s cid).1]

/-- A recorded delivery time `some now` survives any further delivery at the
same tick time. -/
lemma send_lastEventTime_stable {now : Nat} {s : EventService} (cid : String)
    (e : SSEEvent) (h : s.lastEventTime = some now) :
    (sendToClient now s cid e).1.lastEventTime = some now := by
  unfold sendToClient
  cases hg : getClient s cid with
  | none => exact h
  | some c =>
    by_cases he : c.controller.canEnqueue
    · simp [he]
    · simp [he, (disconnect_fields s cid).2.1, h]

/-- The client table never grows across one delivery. -/
lemma send_length_le (now : Nat) (s : EventService) (cid : String) (e : SSEEvent) :
    (sendToClient now s cid e).1.clients.length ≤ s.clients.length := by
  unfold sendToClient
  cases h : getClient s cid with
  | none => exact Nat.le_refl _
  | some c =>
    by_cases he : c.controller.canEnqueue
    · simp [he]
    · by_cases hc : c.controller.canClose
      · simp [disconnectClient_close h hc, he]
        exact List.length_filter_le _ _
      · simp [disconnectClient_stuck h (by simpa using hc), he]

/-- Lookup of one id is unaffected by disconnecting another id. -/
lemma getClient_disconnect_other {s : EventService} {cid cid' : String}
    (hne : cid ≠ cid') :
    getClient (disconnectClient s cid').1 cid = getClient s cid := by
  unfold disconnectClient
  cases h : getClient s cid' with
  | none => rfl
  | some c =>
    by_cases hc : c.controller.canClose
    · simpa [hc, getClient] using find_filter_ne s.clients hne
    · simp [hc]

/-- After a successful delivery to `cid`, every lookup sees the old table with
only the target's stream extended. -/
lemma getClient_send_all {now : Nat} {s : EventService} {cid : String}
    {e : SSEEvent} {c : SSEClient}
    (h : getClient s cid = some c) (he : c.controller.canEnqueue = true)
    (y : String) :
    getClient (sendToClient now s cid e).1 y =
      (getClient s y).map (fun x => if x.id == cid then appendFrame e x else x) := by
  rw [sendToClient_success h he]
  show (s.clients.map _).find? _ = _
  exact find_map_id_preserving _
    (by intro x; by_cases hx : x.id = cid <;> simp [hx, appendFrame]) s.clients y

/-- Lookup of one id is unaffected by a delivery attempt to another id. -/
lemma getClient_send_other {now : Nat} {s : EventService} {cid cid' : String}
    {e : SSEEvent} (hne : cid ≠ cid') :
    getClient (sendToClient now s cid' e).1 cid = getClient s cid := by
  cases h : getClient s cid' with
  | none => rw [sendToClient_absent h]
  | some c =>
    by_cases he : c.controller.canEnqueue
    · rw [getClient_send_all h he]
      cases hx : getClient s cid with
      | none => rfl
      | some x =>
        have hid : x.id = cid := getClient_id hx
        simp [hid, hne]
    · rw [sendToClient_fail h (by simpa using he)]
      exact getClient_disconnect_other hne

/-- Unfolded form of `getClient`. -/
lemma getClient_def (s : EventService) (cid : String) :
    getClient s cid = s.clients.find? (fun c => c.id == cid) := rfl

/-- Refreshing one id's `lastPing` maps the lookup of any id. -/
lemma getClient_updateLastPing_all (s : EventService) (cid' : String) (t : Nat)
    (y : String) :
    getClient (updateLastPing s cid' t) y =
      (getClient s y).map
        (fun x => if x.id == cid' then { x with lastPing := t } else x) := by
  rw [getClient_def, getClient_def]
  exact find_map_id_preserving _
    (by intro x; by_cases hx : x.id = cid' <;> simp [hx]) s.clients y

/-- Lookup of one id is unaffected by refreshing another id's `lastPing`. -/
lemma getClient_updateLastPing_other {s : EventService} {cid cid' : String}
    {t : Nat} (hne : cid ≠ cid') :
    getClient (updateLastPing s cid' t) cid = getClient s cid := by
  rw [getClient_updateLastPing_all]
  cases hx : getClient s cid with
  | none => rfl
  | some x => simp [getClient_id hx, hne]

/-- Refreshing a present client's `lastPing` updates exactly that field. -/
lemma getClient_updateLastPing_self {s : EventService} {cid : String}
    {t : Nat} {c : SSEClient} (h : getClient s cid = some c) :
    getClient (updateLastPing s cid t) cid = some { c with lastPing := t } := by
  rw [getClient_updateLastPing_all, h]
  simp [getClient_id h]

/-! ### Multicast loop lemmas -/

/-- Unfolding: empty snapshot. -/
lemma sendLoop_nil (now : Nat) (e : SSEEvent) (acc : EventService × Nat) :
    sendLoop now e [] acc = acc := rfl

/-- Unfolding: one step of the multicast loop. -/
lemma sendLoop_cons (now : Nat) (e : SSEEvent) (c : SSEClient)
    (t : List SSEClient) (acc : EventService × Nat) :
    sendLoop now e (c :: t) acc = sendLoop now e t (sendStep now e acc c) := rfl

/-- Appending a frame leaves the stream capabilities unchanged. -/
lemma appendFrame_flags (e : SSEEvent) (c : SSEClient) :
    (appendFrame e c).controller.canEnqueue = c.controller.canEnqueue ∧
    (appendFrame e c).controller.canClose = c.controller.canClose := ⟨rfl, rfl⟩

/-- A successful delivery preserves the deliverability of every snapshot. -/
lemma allSendOk_preserved {now : Nat} {s : EventService} {e : SSEEvent}
    {cid : String} {c' : SSEClient}
    (h : getClient s cid = some c') (he : c'.controller.canEnqueue = true)
    {cs : List SSEClient} (hall : allSendOk s cs = true) :
    allSendOk (sendToClient now s cid e).1 cs = true := by
  simp only [allSendOk, List.all_eq_true] at hall ⊢
  intro x hx
  have hx' := hall x hx
  rw [getClient_send_all h he x.id]
  cases hg : getClient s x.id with
  | none => rw [hg] at hx'; exact absurd hx' (by simp)
  | some y =>
    rw [hg] at hx'
    by_cases hy : y.id = cid <;> simp [hy, appendFrame] at hx' ⊢ <;> exact hx'

/-- Deliverability of the head of a snapshot, extracted. -/
lemma allSendOk_head {s : EventService} {c : SSEClient} {t : List SSEClient}
    (hall : allSendOk s (c :: t) = true) :
    ∃ c', getClient s c.id = some c' ∧ c'.controller.canEnqueue = true := by
  simp only [allSendOk, List.all_cons, Bool.and_eq_true] at hall
  obtain ⟨hc, _⟩ := hall
  cases hg : getClient s c.id with
  | none => rw [hg] at hc; exact absurd hc (by simp)
  | some c' => rw [hg] at hc; exact ⟨c', rfl, hc⟩

/-- Deliverability of the tail of a snapshot, extracted. -/
lemma allSendOk_tail {s : EventService} {c : SSEClient} {t : List SSEClient}
    (hall : allSendOk s (c :: t) = true) : allSendOk s t = true := by
  simp only [allSendOk, List.all_cons, Bool.and_eq_true] at hall
  exact hall.2

/-- When every snapshot client is deliverable, the loop counts them all. -/
lemma sendLoop_count (now : Nat) (e : SSEEvent) :
    ∀ (cs : List SSEClient) (s : EventService) (n : Nat),
      allSendOk s cs = true → (sendLoop now e cs (s, n)).2 = n + cs.length := by
  intro cs
  induction cs with
  | nil => intro s n _; simp [sendLoop_nil]
  | cons c t ih =>
    intro s n hall
    obtain ⟨c', hg, he⟩ := allSendOk_head hall
    rw [sendLoop_cons]
    have hstep : sendStep now e (s, n) c =
        ((sendToClient now s c.id e).1, n + 1) := by
      simp [sendStep, sendToClient_success hg he]
    rw [hstep, ih _ (n + 1) (allSendOk_preserved hg he (allSendOk_tail hall))]
    simp [List.length_cons]
    omega

/-- Stream content after a successful delivery, for an arbitrary lookup. -/
lemma sentOf_send {now : Nat} {s : EventService} {cid : String} {e : SSEEvent}
    {c' : SSEClient} (h : getClient s cid = some c')
    (he : c'.controller.canEnqueue = true) (y : String) :
    sentOf (sendToClient now s cid e).1 y =
      (sentOf s y).map
        (fun l => if y = cid then l ++ [formatEvent e] else l) := by
  unfold sentOf
  rw [getClient_send_all h he y]
  cases hy : getClient s y with
  | none => rfl
  | some x =>
    have hid : x.id = y := getClient_id hy
    by_cases hyc : y = cid <;> simp [hid, hyc, appendFrame]

/-- When every snapshot client is deliverable, the loop appends to each
client's stream exactly one frame per occurrence of its id in the snapshot. -/
lemma sendLoop_sent (now : Nat) (e : SSEEvent) :
    ∀ (cs : List SSEClient) (s : EventService) (n : Nat) (y : String),
      allSendOk s cs = true →
      sentOf (sendLoop now e cs (s, n)).1 y =
        (sentOf s y).map
          (fun l => l ++ List.replicate
            ((cs.map (fun c => c.id)).count y) (formatEvent e)) := by
  intro cs
  induction cs with
  | nil =>
    intro s n y _
    cases h : sentOf s y <;> simp [sendLoop_nil, h]
  | cons c t ih =>
    intro s n y hall
    obtain ⟨c', hg, he⟩ := allSendOk_head hall
    rw [sendLoop_cons]
    have hstep : sendStep now e (s, n) c =
        ((sendToClient now s c.id e).1, n + 1) := by
      simp [sendStep, sendToClient_success hg he]
    rw [hstep, ih _ (n + 1) y (allSendOk_preserved hg he (allSendOk_tail hall)),
        sentOf_send hg he y]
    have hcount : ((c :: t).map (fun c => c.id)).count y =
        ((t.map (fun c => c.id)).count y) + (if y = c.id then 1 else 0) := by
      simp only [List.map_cons, List.count_cons, beq_iff_eq]
      by_cases hyc : y = c.id <;> simp [hyc, eq_comm]
    rw [hcount]
    cases hy : sentOf s y with
    | none => rfl
    | some l =>
      by_cases hyc : y = c.id <;>
        simp [hyc, List.replicate_succ, List.append_assoc]

/-! ### Filter resolution lemmas -/

/-- The empty filter matches every client. -/
lemma matchesFilter_empty (c : SSEClient) : matchesFilter {} c = true := rfl

/-- The empty filter resolves to the whole table. -/
lemma getClientsByFilter_empty (s : EventService) :
    getClientsByFilter s {} = s.clients := by
  unfold getClientsByFilter
  rw [List.filter_congr (fun x _ => matchesFilter_empty x)]
  simp

/-- A userId-only filter with a nonempty id matches exactly on `userId`. -/
lemma matchesFilter_userId {u : String} (hu : u ≠ "") (c : SSEClient) :
    matchesFilter { userId := some u } c = (c.userId == some u) := by
  simp [matchesFilter, hu]

/-- A userId-only filter with a nonempty id resolves to the clients with that
`userId`. -/
lemma getClientsByFilter_userId {u : String} (hu : u ≠ "") (s : EventService) :
    getClientsByFilter s { userId := some u } =
      s.clients.filter (fun c => c.userId == some u) := by
  unfold getClientsByFilter
  exact List.filter_congr (fun x _ => matchesFilter_userId hu x)

/-- When every stream accepts writes, every snapshot whose members are drawn
from the table is deliverable. -/
lemma allSendOk_of_allStreamsOk {s : EventService} {cs : List SSEClient}
    (hsub : ∀ x ∈ cs, x ∈ s.clients) (h : allStreamsOk s = true) :
    allSendOk s cs = true := by
  simp only [allSendOk, List.all_eq_true]
  intro x hx
  have hs : (s.clients.find? (fun c => c.id == x.id)).isSome := by
    apply List.find?_isSome.mpr
    exact ⟨x, hsub x hx, by simp⟩
  obtain ⟨y, hy⟩ := Option.isSome_iff_exists.mp hs
  have hy' : getClient s x.id = some y := hy
  rw [hy']
  simp only [allStreamsOk, List.all_eq_true] at h
  exact h y (getClient_mem hy')

/-- In a table with pairwise-distinct ids, a member's id occurs in a filtered
snapshot exactly when the member satisfies the filter. -/
lemma count_filter_map_nodup {l : List SSEClient} (p : SSEClient → Bool)
    (hn : (l.map (fun x => x.id)).Nodup) {c : SSEClient} (hm : c ∈ l) :
    ((l.filter p).map (fun x => x.id)).count c.id = if p c then 1 else 0 := by
  have hsub : ((l.filter p).map (fun x => x.id)).Sublist
      (l.map (fun x => x.id)) := (List.filter_sublist l).map _
  have hn' := hn.sublist hsub
  by_cases hp : p c
  · rw [if_pos hp]
    exact List.count_eq_one_of_mem hn'
      (List.mem_map_of_mem _ (List.mem_filter.mpr ⟨hm, hp⟩))
  · rw [if_neg hp]
    apply List.count_eq_zero.mpr
    intro hmem
    obtain ⟨x, hx, hxid⟩ := List.mem_map.mp hmem
    obtain ⟨hxl, hpx⟩ := List.mem_filter.mp hx
    have : x = c := List.inj_on_of_nodup_map hn hxl hm hxid
    exact hp (this ▸ hpx)

/-! ### Heartbeat loop lemmas -/

/-- Unfolding: empty ping snapshot. -/
lemma pingLoop_nil (now : Nat) (s : EventService) : pingLoop now [] s = s := rfl

/-- Unfolding: one step of the ping loop. -/
lemma pingLoop_cons (now : Nat) (c : SSEClient) (t : List SSEClient)
    (s : EventService) :
    pingLoop now (c :: t) s = pingLoop now t (pingStep now s c) := rfl

/-- Refreshing `lastPing` changes no engine-level field but the table. -/
lemma updateLastPing_fields (s : EventService) (cid : String) (t : Nat) :
    (updateLastPing s cid t).totalEventsSent = s.totalEventsSent ∧
    (updateLastPing s cid t).lastEventTime = s.lastEventTime ∧
    (updateLastPing s cid t).config = s.config ∧
    (updateLastPing s cid t).pingActive = s.pingActive := ⟨rfl, rfl, rfl, rfl⟩

/-- A ping step aimed at another client does not affect a lookup. -/
lemma getClient_pingStep_other {now : Nat} {s : EventService} {c : SSEClient}
    {cid : String} (hne : cid ≠ c.id) :
    getClient (pingStep now s c) cid = getClient s cid := by
  unfold pingStep
  cases hr : (sendToClient now s c.id (heartbeatEvent now)).2
  · simpa [hr] using getClient_send_other hne
  · simp only [hr, if_true]
    rw [getClient_updateLastPing_other hne]
    exact getClient_send_other hne

/-- A ping step never decreases the delivered-event counter. -/
lemma pingStep_counter_ge (now : Nat) (s : EventService) (c : SSEClient) :
    s.totalEventsSent ≤ (pingStep now s c).totalEventsSent := by
  unfold pingStep
  cases hr : (sendToClient now s c.id (heartbeatEvent now)).2 <;>
    simp [hr, (updateLastPing_fields _ _ _).1, send_counter_ge]

/-- A ping step keeps a delivery time already recorded at this tick. -/
lemma pingStep_lastEventTime_stable {now : Nat} {s : EventService}
    (c : SSEClient) (h : s.lastEventTime = some now) :
    (pingStep now s c).lastEventTime = some now := by
  unfold pingStep
  cases hr : (sendToClient now s c.id (heartbeatEvent now)).2 <;>
    simp [hr, (updateLastPing_fields _ _ _).2.1, send_lastEventTime_stable _ _ h]

/-- A ping loop over clients with other ids: lookups of `cid` are untouched,
the counter never decreases, and a delivery time recorded at this tick is
kept. -/
lemma pingLoop_other (now : Nat) :
    ∀ (cs : List SSEClient) (s : EventService) (cid : String),
      (∀ x ∈ cs, x.id ≠ cid) →
      getClient (pingLoop now cs s) cid = getClient s cid ∧
      s.totalEventsSent ≤ (pingLoop now cs s).totalEventsSent ∧
      (s.lastEventTime = some now → (pingLoop now cs s).lastEventTime = some now) := by
  intro cs
  induction cs with
  | nil => intro s cid _; exact ⟨rfl, Nat.le_refl _, fun h => h⟩
  | cons c t ih =>
    intro s cid hne
    have hc : c.id ≠ cid := hne c (List.mem_cons_self c t)
    have ht : ∀ x ∈ t, x.id ≠ cid := fun x hx => hne x (List.mem_cons_of_mem c hx)
    obtain ⟨ih1, ih2, ih3⟩ := ih (pingStep now s c) cid ht
    rw [pingLoop_cons]
    refine ⟨?_, ?_, ?_⟩
    · rw [ih1]; exact getClient_pingStep_other (Ne.symm hc)
    · exact Nat.le_trans (pingStep_counter_ge now s c) ih2
    · intro h; exact ih3 (pingStep_lastEventTime_stable c h)

/-- The client record after a successful ping: frame appended, `lastPing`
refreshed. -/
def pingedClient (now : Nat) (c : SSEClient) : SSEClient :=
  { c with
      lastPing := now
      controller := { c.controller with
        sent := c.controller.sent ++ [formatEvent (heartbeatEvent now)] } }

/-- Per-client effect of the ping loop on a deliverable member of a snapshot
with pairwise-distinct ids: its frame is appended and its `lastPing` set to the
tick time, the counter strictly increases, and the tick time is recorded as the
last delivery time. -/
lemma pingLoop_member (now : Nat) :
    ∀ (cs : List SSEClient) (s : EventService) (c : SSEClient),
      (cs.map (fun x => x.id)).Nodup → c ∈ cs →
      getClient s c.id = some c → c.controller.canEnqueue = true →
      getClient (pingLoop now cs s) c.id = some (pingedClient now c) ∧
      s.totalEventsSent + 1 ≤ (pingLoop now cs s).totalEventsSent ∧
      (pingLoop now cs s).lastEventTime = some now := by
  intro cs
  induction cs with
  | nil => intro s c _ hm; cases hm
  | cons a t ih =>
    intro s c hn hm hg he
    rw [pingLoop_cons]
    rcases List.mem_cons.mp hm with rfl | hm'
    · have hstep : pingStep now s c =
          updateLastPing (sendToClient now s c.id (heartbeatEvent now)).1 c.id now := by
        simp [pingStep, sendToClient_success hg he]
      have hsend : getClient (sendToClient now s c.id (heartbeatEvent now)).1 c.id
          = some (appendFrame (heartbeatEvent now) c) := by
        rw [getClient_send_all hg he, hg]
        simp
      have hafter : getClient (pingStep now s c) c.id = some (pingedClient now c) := by
        rw [hstep, getClient_updateLastPing_self hsend]
        rfl
      have hcnt : s.totalEventsSent + 1 ≤ (pingStep now s c).totalEventsSent := by
        rw [hstep, (updateLastPing_fields _ _ _).1, sendToClient_success hg he]
      have htime : (pingStep now s c).lastEventTime = some now := by
        rw [hstep, (updateLastPing_fields _ _ _).2.1, sendToClient_success hg he]
      have hne : ∀ x ∈ t, x.id ≠ c.id := by
        intro x hx hEq
        simp only [List.map_cons, List.nodup_cons] at hn
        exact hn.1 (hEq ▸ List.mem_map_of_mem _ hx)
      obtain ⟨o1, o2, o3⟩ := pingLoop_other now t (pingStep now s c) c.id hne
      exact ⟨o1.trans hafter, Nat.le_trans hcnt o2, o3 htime⟩
    · have ha : a.id ≠ c.id := by
        intro hEq
        simp only [List.map_cons, List.nodup_cons] at hn
        exact hn.1 (hEq ▸ List.mem_map_of_mem _ hm')
      have hn' : (t.map (fun x => x.id)).Nodup := by
        simp only [List.map_cons, List.nodup_cons] at hn
        exact hn.2
      have hg' : getClient (pingStep now s a) c.id = some c := by
        rw [getClient_pingStep_other (Ne.symm ha)]; exact hg
      obtain ⟨r1, r2, r3⟩ := ih (pingStep now s a) c hn' hm' hg' he
      exact ⟨r1, Nat.le_trans (Nat.add_le_add_right (pingStep_counter_ge now s a) 1) r2, r3⟩

/-! ### Sweep, teardown and registration lemmas -/

/-- The stale sweep's fold changes no engine-level field but the table. -/
lemma sweepFold_fields (now timeout : Nat) :
    ∀ (cs : List SSEClient) (acc : EventService),
      (cs.foldl (sweepStep now timeout) acc).totalEventsSent = acc.totalEventsSent ∧
      (cs.foldl (sweepStep now timeout) acc).lastEventTime = acc.lastEventTime ∧
      (cs.foldl (sweepStep now timeout) acc).config = acc.config ∧
      (cs.foldl (sweepStep now timeout) acc).pingActive = acc.pingActive := by
  intro cs
  induction cs with
  | nil => intro acc; exact ⟨rfl, rfl, rfl, rfl⟩
  | cons c t ih =>
    intro acc
    obtain ⟨i1, i2, i3, i4⟩ := ih (sweepStep now timeout acc c)
    have hstep :
        (sweepStep now timeout acc c).totalEventsSent = acc.totalEventsSent ∧
        (sweepStep now timeout acc c).lastEventTime = acc.lastEventTime ∧
        (sweepStep now timeout acc c).config = acc.config ∧
        (sweepStep now timeout acc c).pingActive = acc.pingActive := by
      unfold sweepStep
      by_cases h : now - c.lastPing > timeout
      · simp [h, disconnect_fields]
      · simp [h]
    exact ⟨by rw [List.foldl_cons, i1, hstep.1],
           by rw [List.foldl_cons, i2, hstep.2.1],
           by rw [List.foldl_cons, i3, hstep.2.2.1],
           by rw [List.foldl_cons, i4, hstep.2.2.2]⟩

/-- The stale sweep changes no engine-level field but the table. -/
lemma cleanup_fields (now : Nat) (s : EventService) :
    (cleanupStaleClients now s).totalEventsSent = s.totalEventsSent ∧
    (cleanupStaleClients now s).lastEventTime = s.lastEventTime ∧
    (cleanupStaleClients now s).config = s.config ∧
    (cleanupStaleClients now s).pingActive = s.pingActive :=
  sweepFold_fields now s.config.clientTimeout s.clients s

/-- The teardown fold of disconnects preserves the configuration. -/
lemma dropFold_config :
    ∀ (cs : List SSEClient) (acc : EventService),
      (cs.foldl dropStep acc).config = acc.config := by
  intro cs
  induction cs with
  | nil => intro acc; rfl
  | cons c t ih =>
    intro acc
    rw [List.foldl_cons, ih, dropStep, (disconnect_fields acc c.id).2.2.1]

/-- Teardown empties the table, stops the heartbeat and keeps the
configuration. -/
lemma destroy_shape (s : EventService) :
    (destroy s).clients = [] ∧ (destroy s).pingActive = false ∧
    (destroy s).config = s.config := by
  refine ⟨rfl, rfl, ?_⟩
  show (s.clients.foldl dropStep s).config = s.config
  exact dropFold_config s.clients s

/-- `Map.set` overwrite branch: the replacing client is found under its id. -/
lemma find_map_replace (c : SSEClient) :
    ∀ (cs : List SSEClient), cs.any (fun c' => c'.id == c.id) = true →
      (cs.map (fun c' => if c'.id == c.id then c else c')).find?
        (fun x => x.id == c.id) = some c := by
  intro cs
  induction cs with
  | nil => intro h; simp at h
  | cons a t ih =>
    intro hany
    by_cases ha : a.id = c.id
    · simp only [List.map_cons, List.find?_cons]
      simp [ha]
    · have ht : t.any (fun c' => c'.id == c.id) = true := by
        simp only [List.any_cons, Bool.or_eq_true] at hany
        rcases hany with h | h
        · exact absurd (by simpa using h) ha
        · exact h
      simp only [List.map_cons, List.find?_cons]
      have hcond : ((if (a.id == c.id) = true then c else a).id == c.id) = false := by
        simp [ha]
      rw [hcond]
      exact ih ht

/-- `Map.set` lookup: the inserted client is found under its id. -/
lemma find_mapSet (cs : List SSEClient) (c : SSEClient) :
    (mapSet cs c).find? (fun x => x.id == c.id) = some c := by
  unfold mapSet
  by_cases hany : cs.any (fun c' => c'.id == c.id)
  · rw [if_pos hany]
    exact find_map_replace c cs hany
  · rw [if_neg hany]
    induction cs with
    | nil => simp [List.find?_cons]
    | cons a t ih =>
      simp only [List.any_cons, Bool.or_eq_true, not_or] at hany
      have ha : ¬ (a.id = c.id) := by simpa using hany.1
      have ht := ih (by simpa using hany.2)
      simpa [List.find?_cons, ha] using ht

/-- `Map.set` grows the table by at most one entry. -/
lemma length_mapSet_le (cs : List SSEClient) (c : SSEClient) :
    (mapSet cs c).length ≤ cs.length + 1 := by
  unfold mapSet
  by_cases hany : cs.any (fun c' => c'.id == c.id) <;> simp [hany]

/-- Registration at capacity throws the capacity error. -/
lemma createConnection_atCapacity {s : EventService}
    (h : s.clients.length ≥ s.config.maxClients) (now : Nat)
    (options : ConnOptions) :
    createConnection now s options = .error "Maximum number of clients reached" := by
  simp [createConnection, h]

/-- Registration below capacity succeeds: it returns a state with the counter
incremented by the `connected` delivery, a table grown by at most one entry,
and the same configuration. -/
lemma createConnection_ok {s : EventService}
    (h : s.clients.length < s.config.maxClients) (now : Nat)
    (options : ConnOptions) :
    ∃ s' cid, createConnection now s options = .ok (s', cid) ∧
      s'.totalEventsSent = s.totalEventsSent + 1 ∧
      s'.clients.length ≤ s.clients.length + 1 ∧
      s'.config = s.config := by
  have hnot : ¬ (s.clients.length ≥ s.config.maxClients) := by omega
  have hg : getClient
      { s with clients := mapSet s.clients (newClient now s options)
               nextClientId := s.nextClientId + 1 }
      (newClient now s options).id = some (newClient now s options) :=
    find_mapSet s.clients (newClient now s options)
  refine ⟨(sendToClient now
      { s with clients := mapSet s.clients (newClient now s options)
               nextClientId := s.nextClientId + 1 }
      (newClient now s options).id
      (connectedEvent now (newClient now s options).id)).1,
    (newClient now s options).id, ?_, ?_, ?_, ?_⟩
  · unfold createConnection
    rw [if_neg hnot]
  · rw [sendToClient_success hg rfl]
  · exact Nat.le_trans
      (send_length_le now _ (newClient now s options).id
        (connectedEvent now (newClient now s options).id))
      (length_mapSet_le s.clients (newClient now s options))
  · exact (send_fields now _ (newClient now s options).id
      (connectedEvent now (newClient now s options).id)).1

/-- Components of a successful registration, recovered from the result. -/
lemma createConnection_ok_inv {now : Nat} {s : EventService}
    {options : ConnOptions} {p : EventService × String}
    (h : createConnection now s options = .ok p) :
    p.1.config = s.config ∧ p.1.clients.length ≤ s.clients.length + 1 ∧
      s.clients.length < s.config.maxClients := by
  by_cases hc : s.clients.length ≥ s.config.maxClients
  · rw [createConnection_atCapacity hc] at h
    cases h
  · have hlt : s.clients.length < s.config.maxClients := by omega
    obtain ⟨s', cid, heq, _, hlen, hcfg⟩ := createConnection_ok hlt now options
    rw [heq] at h
    cases h
    exact ⟨hcfg, hlen, hlt⟩

/-- One registration attempt keeps the capacity invariant and the
configuration. -/
lemma regStep_inv {s : EventService} (r : Nat × ConnOptions)
    (hinv : s.clients.length ≤ s.config.maxClients) :
    (regStep s r).clients.length ≤ (regStep s r).config.maxClients ∧
    (regStep s r).config = s.config := by
  unfold regStep
  cases h : createConnection r.1 s r.2 with
  | error msg =>
    show s.clients.length ≤ s.config.maxClients ∧ s.config = s.config
    exact ⟨hinv, rfl⟩
  | ok p =>
    show p.1.clients.length ≤ p.1.config.maxClients ∧ p.1.config = s.config
    obtain ⟨hcfg, hlen, hlt⟩ := createConnection_ok_inv h
    constructor
    · rw [hcfg]; omega
    · exact hcfg

/-- Unfolding: one registration attempt of a sequence. -/
lemma regFold_cons (r : Nat × ConnOptions) (t : List (Nat × ConnOptions))
    (s : EventService) : regFold (r :: t) s = regFold t (regStep s r) := rfl

/-- Any sequence of registration attempts keeps the capacity invariant. -/
lemma regFold_inv :
    ∀ (reqs : List (Nat × ConnOptions)) (s : EventService),
      s.clients.length ≤ s.config.maxClients →
      (regFold reqs s).clients.length ≤ s.config.maxClients ∧
      (regFold reqs s).config = s.config := by
  intro reqs
  induction reqs with
  | nil => intro s hinv; exact ⟨hinv, rfl⟩
  | cons r t ih =>
    intro s hinv
    obtain ⟨h1, h2⟩ := regStep_inv r hinv
    obtain ⟨i1, i2⟩ := ih (regStep s r) h1
    rw [regFold_cons]
    constructor
    · exact Nat.le_trans i1 (Nat.le_of_eq (congrArg ResolvedConfig.maxClients h2))
    · rw [i2, h2]

/-- On an empty table every lookup fails. -/
lemma getClient_empty {s : EventService} (h : s.clients = []) (cid : String) :
    getClient s cid = none := by
  unfold getClient
  rw [h]
  rfl

/-- On an empty table dispatch, disconnect and broadcast are no-ops. -/
lemma empty_noops {s : EventService} (h : s.clients = []) :
    (∀ now cid e, sendToClient now s cid e = (s, false)) ∧
    (∀ cid, disconnectClient s cid = (s, false)) ∧
    (∀ now e, broadcast now s e = (s, 0)) := by
  refine ⟨fun now cid e => sendToClient_absent (getClient_empty h cid),
          fun cid => disconnectClient_absent (getClient_empty h cid),
          fun now e => ?_⟩
  unfold broadcast sendToClients getClientsByFilter
  rw [h]
  rfl

/-! ### String lemmas for the frame format -/

/-- Concatenation distributes over list append. -/
lemma concatAll_append (l1 l2 : List String) :
    concatAll (l1 ++ l2) = concatAll l1 ++ concatAll l2 := by
  induction l1 with
  | nil => simp [concatAll, String.empty_append]
  | cons x t ih => simp [concatAll, ih, String.append_assoc]

/-- Newline-terminating each line and concatenating equals joining with
newlines and appending one final newline, for a nonempty line list. -/
lemma concat_map_nl :
    ∀ (l : List String), l ≠ [] →
      concatAll (l.map (fun x => x ++ "\n")) = joinSep "\n" l ++ "\n" := by
  intro l
  induction l with
  | nil => intro h; cases h rfl
  | cons x t ih =>
    intro _
    cases t with
    | nil => simp [concatAll, joinSep, String.append_empty]
    | cons y t' =>
      have hrec := ih (by simp)
      simp only [List.map_cons, concatAll, joinSep] at hrec ⊢
      rw [hrec]
      simp [String.append_assoc]

/-- The newline split never returns an empty segment list. -/
lemma splitNl_ne_nil : ∀ (cs : List Char), splitNl cs ≠ [] := by
  intro cs
  cases cs with
  | nil => simp [splitNl]
  | cons c t =>
    unfold splitNl
    cases h : splitNl t with
    | nil => simp
    | cons g gs => by_cases hc : c = '\n' <;> simp [hc]

/-- String line-splitting never returns an empty segment list. -/
lemma splitLines_ne_nil (s : String) : splitLines s ≠ [] := by
  unfold splitLines
  intro h
  exact splitNl_ne_nil s.data (List.map_eq_nil_iff.mp h)

/-- The source frame encoding agrees with the amended line-list description
on every event. -/
lemma formatEvent_eq_amended (e : SSEEvent) : formatEvent e = specFormatAmended e := by
  rcases e with ⟨ev, d, i, r⟩
  have hne : ((splitLines (payloadText d)).map (fun l => "data: " ++ l)) ≠ [] := by
    intro h
    exact splitLines_ne_nil (payloadText d) (List.map_eq_nil_iff.mp h)
  have hd : concatAll
      ((((splitLines (payloadText d)).map (fun l => "data: " ++ l)).map
        (fun x => x ++ "\n"))) =
      joinSep "\n" ((splitLines (payloadText d)).map (fun l => "data: " ++ l)) ++ "\n" :=
    concat_map_nl _ hne
  have h2n : ("\n" ++ "\n" : String) = "\n\n" := rfl
  unfold formatEvent specFormatAmended amendedFrameLines
  simp only [List.map_append, concatAll_append, hd]
  cases i with
  | none =>
    cases r with
    | none =>
      by_cases hev : ev = "" <;>
        simp [hev, concatAll, String.append_assoc, String.append_empty,
          String.empty_append, h2n]
    | some rv =>
      by_cases hev : ev = "" <;> by_cases hr : rv = 0 <;>
        simp [hev, hr, concatAll, String.append_assoc, String.append_empty,
          String.empty_append, h2n]
  | some iv =>
    cases r with
    | none =>
      by_cases hev : ev = "" <;> by_cases hi : iv = "" <;>
        simp [hev, hi, concatAll, String.append_assoc, String.append_empty,
          String.empty_append, h2n]
    | some rv =>
      by_cases hev : ev = "" <;> by_cases hi : iv = "" <;> by_cases hr : rv = 0 <;>
        simp [hev, hi, hr, concatAll, String.append_assoc, String.append_empty,
          String.empty_append, h2n]

/-- A truthiness-guarded equality test equals the disjunction with
emptiness. -/
lemma truthyClause (u : String) (z : Bool) :
    (if u = "" then true else z) = (decide (u = "") || z) := by
  by_cases hu : u = "" <;> simp [hu]

/-! ### Claim C1 -/

/-- C1, counterexample: a successful `sendToClient` of an application event at
time 100 returns true but leaves the client's `lastPing` at its old value 0
instead of updating it to the current time, refuting the claim that every
successful delivery refreshes `lastPing`. -/
theorem c1_counterexample :
    (sendToClient 100 svcU "rt_0" evN).2 = true ∧
    lastPingOf (sendToClient 100 svcU "rt_0" evN).1 "rt_0" = some 0 ∧
    lastPingOf (sendToClient 100 svcU "rt_0" evN).1 "rt_0" ≠ some 100 := by
  decide

/-- C1, amended: a successful delivery via `sendToClient` increments the
delivered-event counter, records the delivery time and returns true, but
leaves the client's `lastPing` unchanged; `lastPing` is refreshed only by the
heartbeat loop itself, which sets it to the tick time after its ping delivery
succeeds. -/
theorem c1_amended (now now2 : Nat) (s : EventService) (c : SSEClient)
    (e : SSEEvent) (hn : (s.clients.map (fun x => x.id)).Nodup)
    (hm : c ∈ s.clients) (he : c.controller.canEnqueue = true) :
    (sendToClient now s c.id e).2 = true ∧
    (sendToClient now s c.id e).1.totalEventsSent = s.totalEventsSent + 1 ∧
    (sendToClient now s c.id e).1.lastEventTime = some now ∧
    lastPingOf (sendToClient now s c.id e).1 c.id = some c.lastPing ∧
    lastPingOf (sendPings now2 s) c.id = some now2 := by
  have hg : getClient s c.id = some c := getClient_of_mem_nodup hn hm
  refine ⟨?_, ?_, ?_, ?_, ?_⟩
  · rw [sendToClient_success hg he]
  · rw [sendToClient_success hg he]
  · rw [sendToClient_success hg he]
  · unfold lastPingOf
    rw [getClient_send_all hg he, hg]
    simp [appendFrame]
  · unfold lastPingOf sendPings
    rw [(pingLoop_member now2 s.clients s c hn hm hg he).1]
    rfl

/-- C1, witness: the amended statement evaluated on the one-client engine
`svcU` at times 100 and 7. -/
theorem c1_witness :
    (sendToClient 100 svcU clientU.id evN).2 = true ∧
    (sendToClient 100 svcU clientU.id evN).1.totalEventsSent =
      svcU.totalEventsSent + 1 ∧
    (sendToClient 100 svcU clientU.id evN).1.lastEventTime = some 100 ∧
    lastPingOf (sendToClient 100 svcU clientU.id evN).1 clientU.id =
      some clientU.lastPing ∧
    lastPingOf (sendPings 7 svcU) clientU.id = some 7 :=
  c1_amended 100 7 svcU clientU evN (by decide) (by decide) (by decide)

/-! ### Claim C2 -/

/-- C2, counterexample: after `destroy` the registry is empty, yet a further
registration succeeds and inserts a client, refuting the claim that every
post-teardown operation is rejected or a no-op. -/
theorem c2_counterexample :
    (destroy svcReg).clients = [] ∧
    ∃ s' cid, createConnection 5 (destroy svcReg) {} = .ok (s', cid) ∧
      s'.clients.length = 1 :=
  ⟨rfl, _, _, rfl, rfl⟩

/-- C2, amended: `destroy` stops the heartbeat loop, releases every client and
leaves the registry empty, and afterwards every dispatch or disconnect is a
crash-free no-op returning false / zero; however, no terminal flag is kept, so
a further registration still succeeds whenever the configured capacity is
positive. -/
theorem c2_amended (s : EventService) :
    (destroy s).clients = [] ∧
    (destroy s).pingActive = false ∧
    (∀ now cid e, sendToClient now (destroy s) cid e = ((destroy s), false)) ∧
    (∀ cid, disconnectClient (destroy s) cid = ((destroy s), false)) ∧
    (∀ now e, broadcast now (destroy s) e = ((destroy s), 0)) ∧
    (0 < s.config.maxClients →
      ∀ now options, ∃ p, createConnection now (destroy s) options = .ok p) := by
  obtain ⟨h1, h2, h3⟩ := destroy_shape s
  obtain ⟨n1, n2, n3⟩ := empty_noops h1
  refine ⟨h1, h2, n1, n2, n3, ?_⟩
  intro hmax now options
  have hlt : (destroy s).clients.length < (destroy s).config.maxClients := by
    rw [h1, h3]
    simpa using hmax
  obtain ⟨s', cid, heq, _⟩ := createConnection_ok hlt now options
  exact ⟨(s', cid), heq⟩

/-- C2, witness: the amended statement evaluated on the one-registration
engine `svcReg`. -/
theorem c2_witness :
    (destroy svcReg).clients = [] ∧
    (destroy svcReg).pingActive = false ∧
    ∃ p, createConnection 9 (destroy svcReg) {} = .ok p :=
  ⟨(c2_amended svcReg).1, (c2_amended svcReg).2.1,
   (c2_amended svcReg).2.2.2.2.2 (by decide) 9 {}⟩

/-! ### Claim C3 -/

/-- C3: registration below capacity succeeds; registration at capacity fails
with the capacity error before any stream is opened (the caller's state is
untouched); and no sequence of registrations ever pushes the client count
beyond `maxClients`. -/
theorem c3_capacity (now : Nat) (options : ConnOptions) (s : EventService)
    (reqs : List (Nat × ConnOptions))
    (hinv : s.clients.length ≤ s.config.maxClients) :
    (s.clients.length < s.config.maxClients →
      ∃ p, createConnection now s options = .ok p) ∧
    (s.clients.length ≥ s.config.maxClients →
      createConnection now s options = .error "Maximum number of clients reached" ∧
      regStep s (now, options) = s) ∧
    (regFold reqs s).clients.length ≤ s.config.maxClients := by
  refine ⟨?_, ?_, (regFold_inv reqs s hinv).1⟩
  · intro h
    obtain ⟨s', cid, heq, _⟩ := createConnection_ok h now options
    exact ⟨(s', cid), heq⟩
  · intro h
    refine ⟨createConnection_atCapacity h now options, ?_⟩
    unfold regStep
    rw [createConnection_atCapacity h now options]

/-- C3, witness: below capacity a registration on a fresh engine succeeds and
a two-registration sequence stays within the default capacity; at the
configured capacity 0 a registration fails with the capacity error. -/
theorem c3_witness :
    (∃ p, createConnection 0 (mkService {}) {} = .ok p) ∧
    (regFold [(0, {}), (1, {})] (mkService {})).clients.length ≤
      (mkService {}).config.maxClients ∧
    createConnection 0 (mkService { maxClients := some 0 }) {} =
      .error "Maximum number of clients reached" :=
  ⟨(c3_capacity 0 {} (mkService {}) [(0, {}), (1, {})] (by decide)).1 (by decide),
   (c3_capacity 0 {} (mkService {}) [(0, {}), (1, {})] (by decide)).2.2,
   ((c3_capacity 0 {} (mkService { maxClients := some 0 }) [] (by decide)).2.1
     (by decide)).1⟩

/-! ### Claim C4 -/

/-- C4, failing input evaluated: on a registered client whose transport is
gone (its stream neither accepts writes nor closes without throwing, the state
a cancelled stream is in), `sendToClient` returns false as specified, but the
attempted `disconnectClient` hits the throwing `close()` before the delete, so
the client is still registered and still appears in a subsequent unrestricted
filter query — the write failure does not remove it. -/
theorem c4_bug_eval :
    (sendToClient 100 svcGhost "rt_9" evN).2 = false ∧
    getClient (sendToClient 100 svcGhost "rt_9" evN).1 "rt_9" = some clientGhost ∧
    ((getClientsByFilter (sendToClient 100 svcGhost "rt_9" evN).1 {}).map
      (fun c => c.id)) = ["rt_9"] := by
  decide

/-! ### Claim C5 -/

/-- C5, counterexample: on a registered client whose stream close throws,
`disconnectClient` returns false — not true — and leaves the client in the
registry, refuting the claim that a first call on a registered id removes the
client and returns true. -/
theorem c5_counterexample :
    getClient svcGhost "rt_9" = some clientGhost ∧
    (disconnectClient svcGhost "rt_9").2 = false ∧
    (disconnectClient svcGhost "rt_9").1 = svcGhost := by
  decide

/-- C5, amended: `disconnectClient` never throws; on an absent id it is a
no-op returning false; on a registered id whose stream close succeeds it
removes the client, closes the stream exactly once and returns true, and a
second call on the same id is a no-op returning false (no double close); but
on a registered id whose stream close throws it catches the error and returns
false with the client still registered. -/
theorem c5_amended (s : EventService) (cid : String) :
    (getClient s cid = none → disconnectClient s cid = (s, false)) ∧
    (∀ c, getClient s cid = some c → c.controller.canClose = true →
      (disconnectClient s cid).2 = true ∧
      getClient (disconnectClient s cid).1 cid = none ∧
      disconnectClient (disconnectClient s cid).1 cid =
        ((disconnectClient s cid).1, false)) ∧
    (∀ c, getClient s cid = some c → c.controller.canClose = false →
      disconnectClient s cid = (s, false)) := by
  refine ⟨fun h => disconnectClient_absent h, ?_,
    fun c h hc => disconnectClient_stuck h hc⟩
  intro c h hc
  have hshape := disconnectClient_close h hc
  have hnone : getClient (disconnectClient s cid).1 cid = none := by
    rw [hshape]
    show (s.clients.filter _).find? _ = none
    exact find_filter_self s.clients cid
  exact ⟨by rw [hshape], hnone, disconnectClient_absent hnone⟩

/-- C5, witness: the amended statement evaluated on the healthy one-client
engine `svcU`: first disconnect returns true and removes, second returns
false. -/
theorem c5_witness :
    (disconnectClient svcU "rt_0").2 = true ∧
    getClient (disconnectClient svcU "rt_0").1 "rt_0" = none ∧
    disconnectClient (disconnectClient svcU "rt_0").1 "rt_0" =
      ((disconnectClient svcU "rt_0").1, false) :=
  (c5_amended svcU "rt_0").2.1 clientU (by decide) (by decide)

/-! ### Claim C6 -/

/-- C6, counterexample: the filter whose `userId` is the empty string matches
a client with userId `u` under the source's truthiness guard, while the
claim's formula (userId present and unequal) rejects it. -/
theorem c6_counterexample :
    matchesFilter { userId := some "" } clientU = true ∧
    specMatches { userId := some "" } clientU = false := by
  decide

/-- C6, amended: a client matches a filter iff (allow-list absent OR id in
it) AND (userId absent or EMPTY or equal) AND (sessionId absent or EMPTY or
equal) AND (metadata absent OR every given key present with an equal value);
the empty filter matches every client, and the filtered query returns exactly
the clients satisfying this predicate. -/
theorem c6_amended :
    (∀ f c, matchesFilter f c = specMatchesAmended f c) ∧
    (∀ c, matchesFilter {} c = true) ∧
    (∀ s f, getClientsByFilter s f = s.clients.filter (specMatchesAmended f)) := by
  have hmain : ∀ f c, matchesFilter f c = specMatchesAmended f c := by
    intro f c
    unfold matchesFilter specMatchesAmended
    cases f.userId <;> cases f.sessionId <;> simp only [truthyClause]
  refine ⟨hmain, matchesFilter_empty, ?_⟩
  intro s f
  unfold getClientsByFilter
  exact List.filter_congr (fun x _ => hmain f x)

/-! ### Claim C7 -/

/-- C7, counterexample: `sendToUser` with the empty user id delivers to a
client whose userId is `x` (the empty-string filter clause is skipped as
falsy), although no registered client has the empty userId — refuting the
claim that `sendToUser(u, e)` delivers exactly to the clients with
`userId == u`. -/
theorem c7_counterexample :
    (sendToUser 0 svcX "" evN).2 = 1 ∧
    (svcX.clients.filter (fun c => c.userId == some "")).length = 0 := by
  decide

/-- C7, amended: `broadcast` is exactly `sendToClients` with the empty filter
and `sendToUser` exactly `sendToClients` with the userId-only filter; when no
write fails, `broadcast` returns the number of clients registered at call time
and appends exactly one frame to each of their streams; and for a NONEMPTY
user id `u`, `sendToUser u` delivers exactly one frame to each registered
client with `userId = u` and nothing to any other (the empty user id instead
behaves like a broadcast). -/
theorem c7_amended :
    (∀ now s e, broadcast now s e = sendToClients now s {} e) ∧
    (∀ now s u e, sendToUser now s u e = sendToClients now s { userId := some u } e) ∧
    (∀ now s e, allStreamsOk s = true → (broadcast now s e).2 = s.clients.length) ∧
    (∀ now s e c, allStreamsOk s = true →
      (s.clients.map (fun x => x.id)).Nodup → c ∈ s.clients →
      sentOf (broadcast now s e).1 c.id = some (c.controller.sent ++ [formatEvent e])) ∧
    (∀ now s u e, u ≠ "" → allStreamsOk s = true →
      (sendToUser now s u e).2 =
        (s.clients.filter (fun c => c.userId == some u)).length) ∧
    (∀ now s u e c, u ≠ "" → allStreamsOk s = true →
      (s.clients.map (fun x => x.id)).Nodup → c ∈ s.clients →
      sentOf (sendToUser now s u e).1 c.id =
        some (c.controller.sent ++
          (if c.userId == some u then [formatEvent e] else []))) := by
  refine ⟨fun now s e => rfl, fun now s u e => rfl, ?_, ?_, ?_, ?_⟩
  · intro now s e hok
    show (sendLoop now e (getClientsByFilter s {}) (s, 0)).2 = s.clients.length
    rw [getClientsByFilter_empty,
      sendLoop_count now e s.clients s 0
        (allSendOk_of_allStreamsOk (fun x hx => hx) hok)]
    omega
  · intro now s e c hok hn hm
    show sentOf (sendLoop now e (getClientsByFilter s {}) (s, 0)).1 c.id = _
    rw [getClientsByFilter_empty,
      sendLoop_sent now e s.clients s 0 c.id
        (allSendOk_of_allStreamsOk (fun x hx => hx) hok),
      sentOf, getClient_of_mem_nodup hn hm]
    have hcount : (s.clients.map (fun x => x.id)).count c.id = 1 :=
      List.count_eq_one_of_mem hn (List.mem_map_of_mem _ hm)
    simp [hcount]
  · intro now s u e hu hok
    show (sendLoop now e (getClientsByFilter s { userId := some u }) (s, 0)).2 = _
    rw [getClientsByFilter_userId hu,
      sendLoop_count now e _ s 0
        (allSendOk_of_allStreamsOk (fun x hx => List.mem_of_mem_filter hx) hok)]
    omega
  · intro now s u e c hu hok hn hm
    show sentOf (sendLoop now e (getClientsByFilter s { userId := some u }) (s, 0)).1 c.id = _
    rw [getClientsByFilter_userId hu,
      sendLoop_sent now e _ s 0 c.id
        (allSendOk_of_allStreamsOk (fun x hx => List.mem_of_mem_filter hx) hok),
      sentOf, getClient_of_mem_nodup hn hm,
      count_filter_map_nodup (fun c => c.userId == some u) hn hm]
    by_cases hp : (c.userId == some u) = true <;> simp [hp]

/-- C7, witness: the amended statement evaluated on the one-client engine
`svcX` with the nonempty user id `x`. -/
theorem c7_witness :
    (broadcast 3 svcX evN).2 = svcX.clients.length ∧
    sentOf (sendToUser 3 svcX "x" evN).1 clientX.id =
      some (clientX.controller.sent ++
        (if clientX.userId == some "x" then [formatEvent evN] else [])) :=
  ⟨c7_amended.2.2.1 3 svcX evN (by decide),
   c7_amended.2.2.2.2.2 3 svcX "x" evN clientX (by decide) (by decide)
     (by decide) (by decide)⟩

/-! ### Claim C8 -/

/-- An event carrying a zero retry interval. -/
def evRetryZero : SSEEvent :=
  { event := "e", data := .str "x", retry := some 0 }

/-- C8, counterexample: for an event with retry interval 0 the source frame
omits the `retry:` line entirely (the truthiness guard treats 0 as absent),
so it differs from the frame the claim describes, which contains a
`retry: 0` line. -/
theorem c8_counterexample :
    formatEvent evRetryZero ≠ specFormatEvent evRetryZero := by
  decide

/-- C8, amended: `formatEvent` produces exactly, in order, an `id:` line if
the event has a NONEMPTY id, an `event:` line if its type label is NONEMPTY,
a `retry:` line if it has a NONZERO retry interval, then one `data:` line per
newline-delimited segment of the payload (a string payload verbatim, any
other payload its canonical JSON text), each line newline-terminated and the
frame terminated by a blank line; the encoding is a function of the event and
hence deterministic. -/
theorem c8_amended : ∀ e : SSEEvent, formatEvent e = specFormatAmended e :=
  formatEvent_eq_amended

/-! ### Claim C9 -/

/-- C9, failing input evaluated: a registered client with a dead stream whose
`lastPing` is 90 000 ms older than the sweep time is NOT removed by the
heartbeat tick — the sweep calls `disconnectClient`, whose `close()` throws on
the dead stream before the delete runs — refuting the claim that every
overdue client is unregistered by the sweep. -/
theorem c9_bug_eval :
    100000 - clientGhost.lastPing > svcGhost.config.clientTimeout ∧
    (pingTick 100000 svcGhost).clients = [clientGhost] := by
  decide

/-! ### Claim C10 -/

/-- C10, counterexample: an engine with one registered (but dead-streamed)
client reports the same cumulative counter and no last-delivery time after a
heartbeat tick, refuting the claim that the counter strictly increases on
every tick whenever at least one client is connected. -/
theorem c10_counterexample :
    svcGhost.clients.length = 1 ∧
    (getStats 0 (pingTick 100000 svcGhost)).totalEventsSent =
      (getStats 0 svcGhost).totalEventsSent ∧
    (getStats 0 (pingTick 100000 svcGhost)).lastEventTime = none := by
  decide

/-- C10, amended: the counter and last-delivery time reported by `getStats`
count every successful delivery including the synthetic `connected` and `ping`
events: a registration below capacity increments the reported counter by one
(the `connected` event), and on an engine with at least one registered client
whose stream still accepts writes, every heartbeat tick strictly increases the
reported counter and sets the reported last-delivery time to the tick time,
even when no application event is sent. -/
theorem c10_amended (now tq tq2 : Nat) (s : EventService) (c : SSEClient)
    (hn : (s.clients.map (fun x => x.id)).Nodup) (hm : c ∈ s.clients)
    (he : c.controller.canEnqueue = true) :
    (getStats tq s).totalEventsSent < (getStats tq (pingTick now s)).totalEventsSent ∧
    (getStats tq (pingTick now s)).lastEventTime = some now ∧
    (s.clients.length < s.config.maxClients →
      ∀ now2 options, ∃ s' cid, createConnection now2 s options = .ok (s', cid) ∧
        (getStats tq2 s').totalEventsSent = (getStats tq2 s).totalEventsSent + 1) := by
  have hg : getClient s c.id = some c := getClient_of_mem_nodup hn hm
  obtain ⟨p1, p2, p3⟩ := pingLoop_member now s.clients s c hn hm hg he
  have hcl := cleanup_fields now (sendPings now s)
  refine ⟨?_, ?_, ?_⟩
  · show s.totalEventsSent <
      (cleanupStaleClients now (sendPings now s)).totalEventsSent
    have p2' : s.totalEventsSent + 1 ≤ (sendPings now s).totalEventsSent := p2
    rw [hcl.1]
    omega
  · show (cleanupStaleClients now (sendPings now s)).lastEventTime = some now
    rw [hcl.2.1]
    exact p3
  · intro hlt now2 options
    obtain ⟨s', cid, heq, hcnt, _, _⟩ := createConnection_ok hlt now2 options
    exact ⟨s', cid, heq, hcnt⟩

/-- C10, witness: the amended statement evaluated on the one-client engine
`svcU` at tick time 50. -/
theorem c10_witness :
    (getStats 0 svcU).totalEventsSent <
      (getStats 0 (pingTick 50 svcU)).totalEventsSent ∧
    (getStats 0 (pingTick 50 svcU)).lastEventTime = some 50 :=
  ⟨(c10_amended 50 0 0 svcU clientU (by decide) (by decide) (by decide)).1,
   (c10_amended 50 0 0 svcU clientU (by decide) (by decide) (by decide)).2.1⟩

/-- C6, witness: the amended predicate equivalence evaluated on the client
`clientU` and a metadata filter. -/
theorem c6_witness :
    matchesFilter { metadata := some [("role", "admin")] } clientU =
      specMatchesAmended { metadata := some [("role", "admin")] } clientU ∧
    matchesFilter {} clientU = true :=
  ⟨c6_amended.1 { metadata := some [("role", "admin")] } clientU,
   c6_amended.2.1 clientU⟩

/-- C8, witness: the amended frame description evaluated on a sample
event. -/
theorem c8_witness : formatEvent evN = specFormatAmended evN :=
  c8_amended evN
